import Mathlib

/-!
Shallow embedding of the ecommerce-platform order-placement core:
product-service (`Postgres.GetProduct` / `Postgres.UpdateStock` /
`ProductServer.UpdateStock`) and order-service
(`OrderServer.CreateOrder` / `GetOrder` / `ListOrders`).

Modelling choices:
* the `products` table is a list of rows (`id` is a primary key in the SQL
  schema, but the model does not assume distinctness unless stated);
* `int32` columns (`quantity`, `stock`, `delta`) are `Int` — no arithmetic in
  the verified claims approaches the `int32` range;
* `double precision` columns (`price`, `total`) are `Rat`;
* fallible gRPC/DB calls return `Except Code`; `created_at` timestamps are
  omitted (wall-clock time, not referenced by any verified property);
* `uuid.NewString()` is an explicit `newId` argument; success of the two DB
  `ExecContext` inserts in `CreateOrder` is an explicit oracle (`headerOk`,
  `itemOk`), since the Go code consults the database.
-/

namespace ECommerce

/-- Row of the `products` table (product-service `db.ProductRow`). -/
structure ProductRow where
  id : String
  name : String
  price : Rat
  stock : Int
deriving Repr, DecidableEq

/-- proto `OrderItem`: `{product_id, quantity, price}`. -/
structure OrderItem where
  productId : String
  quantity : Int
  price : Rat
deriving Repr, DecidableEq

/-- proto `CreateOrderRequest`. -/
structure CreateOrderRequest where
  userId : String
  items : List OrderItem
deriving Repr, DecidableEq

/-- Row of the `orders` table. -/
structure OrderRow where
  id : String
  userId : String
  total : Rat
  status : String
deriving Repr, DecidableEq

/-- Row of the `order_items` table. -/
structure OrderItemRow where
  orderId : String
  productId : String
  quantity : Int
  price : Rat
deriving Repr, DecidableEq

/-- proto `Order` message returned by the order-service RPCs. -/
structure OrderMsg where
  id : String
  userId : String
  items : List OrderItem
  total : Rat
  status : String
deriving Repr, DecidableEq

/-- gRPC status codes used by the two services. -/
inductive Code where
  | InvalidArgument
  | FailedPrecondition
  | NotFound
  | Internal
deriving Repr, DecidableEq

/-- product-service `Postgres.GetProduct`:
`SELECT ... FROM products WHERE id=$1` + `Scan`; `none` models `ErrNotFound`. -/
def Postgres.GetProduct (tbl : List ProductRow) (id : String) : Option ProductRow :=
  tbl.find? (fun r => r.id = id)

/-- product-service `Postgres.UpdateStock`:
`UPDATE products SET stock = stock + $1 WHERE id=$2` (unconditional, no
`stock >= ...` guard), then `GetProduct` on the updated table. -/
def Postgres.UpdateStock (tbl : List ProductRow) (id : String) (delta : Int) :
    List ProductRow × Option ProductRow :=
  let tbl2 := tbl.map (fun r => if r.id = id then { r with stock := r.stock + delta } else r)
  (tbl2, Postgres.GetProduct tbl2 id)

/-- product-service `ProductServer.UpdateStock` (gRPC handler): maps
`db.ErrNotFound` to `codes.NotFound`, otherwise returns the updated row.
When `GetProduct` finds nothing the `UPDATE` matched no row, so the table
returned in the error case is the unchanged input table. -/
def ProductServer.UpdateStock (tbl : List ProductRow) (id : String) (delta : Int) :
    Except Code (List ProductRow × ProductRow) :=
  match Postgres.UpdateStock tbl id delta with
  | (tbl2, some row) => Except.ok (tbl2, row)
  | (_, none) => Except.error Code.NotFound

/-- A gRPC call `pc.UpdateStock(productID, delta)` recorded as (product id, delta). -/
abbrev StockCall := String × Int

/-- The reservation loop inside `OrderServer.CreateOrder`:
`for _, item := range req.Items { if err := s.pc.UpdateStock(ctx, item.ProductId,
-item.Quantity); err != nil { return ... }; total += float64(item.Quantity) * item.Price }`.
Returns the product-service calls issued, the product table after the loop, and
either the accumulated total or the error of the first failing call. -/
def reserveLoop (prods : List ProductRow) (items : List OrderItem) (total : Rat) :
    List StockCall × List ProductRow × Except Code Rat :=
  match items with
  | [] => ([], prods, Except.ok total)
  | item :: rest =>
    match ProductServer.UpdateStock prods item.productId (-item.quantity) with
    | Except.error c => ([(item.productId, -item.quantity)], prods, Except.error c)
    | Except.ok (prods2, _) =>
      let r := reserveLoop prods2 rest (total + (item.quantity : Rat) * item.price)
      ((item.productId, -item.quantity) :: r.1, r.2)

/-- Persistent state owned by the two services: the product-service `products`
table and the order-service `orders` and `order_items` tables. -/
structure St where
  products : List ProductRow
  orders : List OrderRow
  orderItems : List OrderItemRow
deriving Repr, DecidableEq

/-- The `order_items` insert loop in `CreateOrder`: each `ExecContext` result is
discarded (`_, _ = ...`), so exactly the rows whose insert succeeded (position
`i` with `itemOk i = true`) end up stored, and failures are invisible. -/
def insertOrderItems (orderId : String) (items : List OrderItem) (itemOk : Nat → Bool) :
    List OrderItemRow :=
  (items.enum.filter (fun p => itemOk p.1)).map
    (fun p => ⟨orderId, p.2.productId, p.2.quantity, p.2.price⟩)

/-- order-service `OrderServer.CreateOrder`. Rejects an empty item list with
`InvalidArgument`; runs the reservation loop, turning its first error into
`FailedPrecondition` (no compensation of earlier decrements); inserts the order
header with status `"CREATED"` (insert failure → `Internal`); inserts the line
items ignoring failures; returns the order echoing the request items. -/
def OrderServer.CreateOrder (st : St) (req : CreateOrderRequest) (newId : String)
    (headerOk : Bool) (itemOk : Nat → Bool) : St × Except Code OrderMsg :=
  if req.items.length = 0 then
    (st, Except.error Code.InvalidArgument)
  else
    match reserveLoop st.products req.items 0 with
    | (_, prods2, Except.error _) =>
      ({ st with products := prods2 }, Except.error Code.FailedPrecondition)
    | (_, prods2, Except.ok total) =>
      if headerOk then
        ({ products := prods2,
           orders := st.orders ++ [⟨newId, req.userId, total, "CREATED"⟩],
           orderItems := st.orderItems ++ insertOrderItems newId req.items itemOk },
         Except.ok ⟨newId, req.userId, req.items, total, "CREATED"⟩)
      else
        ({ st with products := prods2 }, Except.error Code.Internal)

/-- order-service `OrderServer.GetOrder`: `SELECT user_id,total,status,created_at
FROM orders WHERE id=$1`; any scan failure becomes `codes.NotFound`. The `Order`
message is built without items. -/
def OrderServer.GetOrder (st : St) (id : String) : Except Code OrderMsg :=
  match st.orders.find? (fun o => o.id = id) with
  | none => Except.error Code.NotFound
  | some o => Except.ok ⟨o.id, o.userId, [], o.total, o.status⟩

/-- order-service `OrderServer.ListOrders`: `SELECT id,total,status,created_at
FROM orders WHERE user_id=$1`; each returned `Order` is built without items. -/
def OrderServer.ListOrders (st : St) (userId : String) : List OrderMsg :=
  (st.orders.filter (fun o => o.userId = userId)).map
    (fun o => ⟨o.id, userId, [], o.total, o.status⟩)

/-- Effect of one product-service `UpdateStock` call on the `products` table
(the `UPDATE` statement runs whether or not the id matches a row). -/
def updateStockTable (tbl : List ProductRow) (id : String) (delta : Int) : List ProductRow :=
  (Postgres.UpdateStock tbl id delta).1

/-- One operation against the system: a `CreateOrder` saga, or a direct
product-service stock reservation (`UpdateStock` with negative delta,
`0 < q`) or release (`UpdateStock` with positive delta). -/
inductive Step : St → St → Prop where
  | createOrder (st : St) (req : CreateOrderRequest) (newId : String)
      (headerOk : Bool) (itemOk : Nat → Bool) :
      Step st (OrderServer.CreateOrder st req newId headerOk itemOk).1
  | reserve (st : St) (pid : String) (q : Int) (hq : 0 < q) :
      Step st { st with products := updateStockTable st.products pid (-q) }
  | release (st : St) (pid : String) (q : Int) (hq : 0 < q) :
      Step st { st with products := updateStockTable st.products pid q }

/-- States reachable from an initial state with non-negative stock and empty
order tables by any sequence of operations. -/
inductive Reachable : St → Prop where
  | init (st : St) (hstock : ∀ r ∈ st.products, 0 ≤ r.stock)
      (horders : st.orders = []) (hitems : st.orderItems = []) : Reachable st
  | step {st st2 : St} : Reachable st → Step st st2 → Reachable st2

/-- `total_amount = Σ quantity × unit_price` over a list of items. -/
def itemsTotal (items : List OrderItem) : Rat :=
  (items.map (fun i => (i.quantity : Rat) * i.price)).sum

/-! ### Concrete states and requests used to instantiate the claims -/

/-- One product `P1` with 1 unit in stock. -/
def stC1 : St := ⟨[⟨"P1", "widget", 10, 1⟩], [], []⟩

/-- Order request for 2 units of `P1` (more than is in stock). -/
def reqC1 : CreateOrderRequest := ⟨"U1", [⟨"P1", 2, 10⟩]⟩

/-- State after placing `reqC1` against `stC1`. -/
def stC1after : St := (OrderServer.CreateOrder stC1 reqC1 "ORD-1" true (fun _ => true)).1

/-- Product table with `P1` at 1 unit of stock. -/
def tblC2 : List ProductRow := [⟨"P1", "widget", 10, 1⟩]

/-- One product `P1` with 5 units in stock. -/
def stC3 : St := ⟨[⟨"P1", "widget", 10, 5⟩], [], []⟩

/-- Two-item request whose second product `P2` does not exist. -/
def reqC3 : CreateOrderRequest := ⟨"U1", [⟨"P1", 1, 10⟩, ⟨"P2", 1, 20⟩]⟩

/-- One product `P1` with 5 units in stock. -/
def stC4 : St := ⟨[⟨"P1", "widget", 10, 5⟩], [], []⟩

/-- Request with a negative quantity. -/
def reqC4 : CreateOrderRequest := ⟨"U1", [⟨"P1", -3, 10⟩]⟩

/-- Request with an empty item list. -/
def reqC4e : CreateOrderRequest := ⟨"U1", []⟩

/-- Two products with 5 units each. -/
def stC5 : St := ⟨[⟨"P1", "widget", 3, 5⟩, ⟨"P2", "gadget", 7, 5⟩], [], []⟩

/-- Two-item request, fully satisfiable. -/
def reqC5 : CreateOrderRequest := ⟨"U1", [⟨"P1", 2, 10⟩, ⟨"P2", 2, 20⟩]⟩

/-- One product `P1` with 5 units in stock. -/
def stC6 : St := ⟨[⟨"P1", "widget", 2, 5⟩], [], []⟩

/-- Single-item request: 2 units at price 3. -/
def reqC6 : CreateOrderRequest := ⟨"U1", [⟨"P1", 2, 3⟩]⟩

/-- One product `P1` with 5 units in stock, no orders. -/
def stC7init : St := ⟨[⟨"P1", "widget", 10, 5⟩], [], []⟩

/-- Single-item request for 1 unit of `P1`. -/
def reqC7 : CreateOrderRequest := ⟨"U1", [⟨"P1", 1, 10⟩]⟩

/-- State after placing `reqC7` against `stC7init`. -/
def stC7after : St := (OrderServer.CreateOrder stC7init reqC7 "ORD-7" true (fun _ => true)).1

/-- One product `P1` with 5 units in stock. -/
def stC8 : St := ⟨[⟨"P1", "widget", 10, 5⟩], [], []⟩

/-- Request `[P1, P2, P1]` where `P2` is unknown: the reservation fails at
index 1, and the item at index 2 repeats the already-reserved product `P1`. -/
def reqC8 : CreateOrderRequest := ⟨"U1", [⟨"P1", 1, 10⟩, ⟨"P2", 1, 10⟩, ⟨"P1", 1, 10⟩]⟩

/-- One product `P1` with 5 units in stock. -/
def stC9 : St := ⟨[⟨"P1", "widget", 10, 5⟩], [], []⟩

/-- Single-item request for 2 units of `P1`. -/
def reqC9 : CreateOrderRequest := ⟨"U1", [⟨"P1", 2, 10⟩]⟩

/-- A state holding one order that does have persisted `order_items` rows. -/
def stC10 : St := ⟨[], [⟨"ORD-10", "U1", 60, "CREATED"⟩], [⟨"ORD-10", "P1", 2, 10⟩]⟩

/-! ### Helper lemmas about the stock table -/

lemma updateStockTable_eq (tbl : List ProductRow) (id : String) (delta : Int) :
    updateStockTable tbl id delta =
      tbl.map (fun r => if r.id = id then { r with stock := r.stock + delta } else r) := rfl

lemma find?_map_of_id (f : ProductRow → ProductRow) (hid : ∀ r, (f r).id = r.id)
    (tbl : List ProductRow) (p : String) :
    (tbl.map f).find? (fun r => r.id = p) = (tbl.find? (fun r => r.id = p)).map f := by
  induction tbl with
  | nil => rfl
  | cons r rest ih =>
    by_cases hr : r.id = p
    · simp [List.find?_cons, hid, hr, ih]
    · simp [List.find?_cons, hid, hr, ih]

lemma GetProduct_updateStockTable (tbl : List ProductRow) (id p : String) (delta : Int) :
    Postgres.GetProduct (updateStockTable tbl id delta) p =
      (Postgres.GetProduct tbl p).map
        (fun r => if r.id = id then { r with stock := r.stock + delta } else r) := by
  unfold Postgres.GetProduct
  rw [updateStockTable_eq]
  exact find?_map_of_id _ (fun r => by split <;> rfl) tbl p

lemma GetProduct_update_ne (tbl : List ProductRow) (id p : String) (delta : Int)
    (h : p ≠ id) :
    Postgres.GetProduct (updateStockTable tbl id delta) p = Postgres.GetProduct tbl p := by
  rw [GetProduct_updateStockTable]
  cases hf : Postgres.GetProduct tbl p with
  | none => rfl
  | some r =>
    have hr : r.id = p := by
      have := List.find?_some hf
      simpa using this
    have : ¬ r.id = id := by rw [hr]; exact h
    simp [this]

lemma updateStockTable_id (tbl : List ProductRow) (id : String) (delta : Int)
    (h : Postgres.GetProduct tbl id = none) :
    updateStockTable tbl id delta = tbl := by
  induction tbl with
  | nil => rfl
  | cons r rest ih =>
    unfold Postgres.GetProduct at h
    have hr : ¬ r.id = id := by
      intro hr
      have h1 : (fun r => decide (r.id = id)) r = true := by simp [hr]
      rw [List.find?_cons_of_pos rest h1] at h
      exact Option.noConfusion h
    have h1 : ¬ ((fun r => decide (r.id = id)) r = true) := by simp [hr]
    have hrest : Postgres.GetProduct rest id = none := by
      rw [List.find?_cons_of_neg rest h1] at h
      exact h
    rw [updateStockTable_eq, List.map_cons, if_neg hr]
    rw [updateStockTable_eq] at ih
    rw [ih hrest]

lemma Postgres.UpdateStock_eq (tbl : List ProductRow) (id : String) (delta : Int) :
    Postgres.UpdateStock tbl id delta =
      (updateStockTable tbl id delta,
       Postgres.GetProduct (updateStockTable tbl id delta) id) := rfl

lemma ProductServer.UpdateStock_found {tbl : List ProductRow} {id : String} {delta : Int}
    {row : ProductRow}
    (h : Postgres.GetProduct (updateStockTable tbl id delta) id = some row) :
    ProductServer.UpdateStock tbl id delta = Except.ok (updateStockTable tbl id delta, row) := by
  unfold ProductServer.UpdateStock
  rw [Postgres.UpdateStock_eq, h]

lemma ProductServer.UpdateStock_notFound {tbl : List ProductRow} {id : String} {delta : Int}
    (h : Postgres.GetProduct (updateStockTable tbl id delta) id = none) :
    ProductServer.UpdateStock tbl id delta = Except.error Code.NotFound := by
  unfold ProductServer.UpdateStock
  rw [Postgres.UpdateStock_eq, h]

lemma ProductServer.UpdateStock_ok_inv {tbl : List ProductRow} {id : String} {delta : Int}
    {tbl2 : List ProductRow} {row : ProductRow}
    (h : ProductServer.UpdateStock tbl id delta = Except.ok (tbl2, row)) :
    tbl2 = updateStockTable tbl id delta ∧
      Postgres.GetProduct (updateStockTable tbl id delta) id = some row := by
  unfold ProductServer.UpdateStock at h
  rw [Postgres.UpdateStock_eq] at h
  cases hf : Postgres.GetProduct (updateStockTable tbl id delta) id with
  | none => rw [hf] at h; exact absurd h (by simp)
  | some r =>
    rw [hf] at h
    simp only [Except.ok.injEq, Prod.mk.injEq] at h
    exact ⟨h.1.symm, congrArg some h.2⟩

lemma ProductServer.UpdateStock_error_inv {tbl : List ProductRow} {id : String} {delta : Int}
    {c : Code}
    (h : ProductServer.UpdateStock tbl id delta = Except.error c) :
    c = Code.NotFound ∧ Postgres.GetProduct tbl id = none ∧
      updateStockTable tbl id delta = tbl := by
  unfold ProductServer.UpdateStock at h
  rw [Postgres.UpdateStock_eq] at h
  cases hf : Postgres.GetProduct (updateStockTable tbl id delta) id with
  | some r => rw [hf] at h; exact absurd h (by simp)
  | none =>
    rw [hf] at h
    simp only [Except.error.injEq] at h
    have hn : Postgres.GetProduct tbl id = none := by
      rw [GetProduct_updateStockTable] at hf
      exact Option.map_eq_none'.mp hf
    exact ⟨h.symm, hn, updateStockTable_id tbl id delta hn⟩

/-! ### Helper lemmas about the reservation loop -/

lemma reserveLoop_cons (prods : List ProductRow) (item : OrderItem) (rest : List OrderItem)
    (t : Rat) :
    reserveLoop prods (item :: rest) t =
      match ProductServer.UpdateStock prods item.productId (-item.quantity) with
      | Except.error c => ([(item.productId, -item.quantity)], prods, Except.error c)
      | Except.ok (prods2, _) =>
        let r := reserveLoop prods2 rest (t + (item.quantity : Rat) * item.price)
        ((item.productId, -item.quantity) :: r.1, r.2) := rfl

lemma reserveLoop_ok_inv (items : List OrderItem) :
    ∀ (prods : List ProductRow) (t : Rat) (tr : List StockCall)
      (prods2 : List ProductRow) (T : Rat),
      reserveLoop prods items t = (tr, prods2, Except.ok T) →
      T = t + itemsTotal items ∧
        tr = items.map (fun i => (i.productId, -i.quantity)) := by
  induction items with
  | nil =>
    intro prods t tr prods2 T h
    simp only [reserveLoop, Prod.mk.injEq, Except.ok.injEq] at h
    refine ⟨?_, h.1.symm⟩
    rw [← h.2.2]
    simp [itemsTotal]
  | cons item rest ih =>
    intro prods t tr prods2 T h
    rw [reserveLoop_cons] at h
    cases hu : ProductServer.UpdateStock prods item.productId (-item.quantity) with
    | error c =>
      rw [hu] at h
      simp only [Prod.mk.injEq] at h
      exact absurd h.2.2 (by simp)
    | ok pr =>
      obtain ⟨prodsMid, row⟩ := pr
      rw [hu] at h
      simp only [Prod.mk.injEq] at h
      obtain ⟨h1, h2⟩ := h
      have hrec : reserveLoop prodsMid rest (t + (item.quantity : Rat) * item.price) =
          ((reserveLoop prodsMid rest (t + (item.quantity : Rat) * item.price)).1,
           prods2, Except.ok T) := by
        rw [← h2]
      obtain ⟨hT, htr⟩ := ih prodsMid (t + (item.quantity : Rat) * item.price) _ prods2 T hrec
      subst h1
      constructor
      · rw [hT]
        simp [itemsTotal]
        ring
      · simp only [List.map_cons, List.cons.injEq]
        exact ⟨trivial, htr⟩

lemma reserveLoop_error_inv (items : List OrderItem) :
    ∀ (prods : List ProductRow) (t : Rat) (tr : List StockCall)
      (prods2 : List ProductRow) (c : Code),
      reserveLoop prods items t = (tr, prods2, Except.error c) →
      0 < tr.length ∧ tr.length ≤ items.length ∧
        tr = (items.take tr.length).map (fun i => (i.productId, -i.quantity)) ∧
        ∀ p, p ∉ (items.take tr.length).map (fun i => i.productId) →
          Postgres.GetProduct prods2 p = Postgres.GetProduct prods p := by
  induction items with
  | nil =>
    intro prods t tr prods2 c h
    simp only [reserveLoop, Prod.mk.injEq] at h
    exact absurd h.2.2 (by simp)
  | cons item rest ih =>
    intro prods t tr prods2 c h
    rw [reserveLoop_cons] at h
    cases hu : ProductServer.UpdateStock prods item.productId (-item.quantity) with
    | error c2 =>
      rw [hu] at h
      simp only [Prod.mk.injEq] at h
      obtain ⟨htr, hprods, _⟩ := h
      subst htr
      subst hprods
      refine ⟨by simp, by simp, by simp, ?_⟩
      intro p hp
      rfl
    | ok pr =>
      obtain ⟨prodsMid, row⟩ := pr
      rw [hu] at h
      simp only [Prod.mk.injEq] at h
      obtain ⟨h1, h2⟩ := h
      have hrec : reserveLoop prodsMid rest (t + (item.quantity : Rat) * item.price) =
          ((reserveLoop prodsMid rest (t + (item.quantity : Rat) * item.price)).1,
           prods2, Except.error c) := by
        rw [← h2]
      obtain ⟨hpos, hle, htr, hframe⟩ :=
        ih prodsMid (t + (item.quantity : Rat) * item.price) _ prods2 c hrec
      obtain ⟨hmid, _⟩ := ProductServer.UpdateStock_ok_inv hu
      subst h1
      refine ⟨by simp, ?_, ?_, ?_⟩
      · simp only [List.length_cons]
        omega
      · simp only [List.length_cons, List.take_succ_cons, List.map_cons, List.cons.injEq]
        exact ⟨trivial, htr⟩
      · intro p hp
        simp only [List.length_cons, List.take_succ_cons, List.map_cons, List.mem_cons,
          not_or] at hp
        obtain ⟨hp1, hp2⟩ := hp
        rw [hframe p hp2, hmid]
        exact GetProduct_update_ne prods item.productId p (-item.quantity) hp1

/-! ### Helper lemmas about `CreateOrder` -/

lemma CreateOrder_empty_eq (st : St) (req : CreateOrderRequest) (newId : String)
    (headerOk : Bool) (itemOk : Nat → Bool) (h : req.items.length = 0) :
    OrderServer.CreateOrder st req newId headerOk itemOk =
      (st, Except.error Code.InvalidArgument) := by
  unfold OrderServer.CreateOrder
  rw [if_pos h]

lemma CreateOrder_loop_error (st : St) (req : CreateOrderRequest) (newId : String)
    (headerOk : Bool) (itemOk : Nat → Bool) (tr : List StockCall)
    (prods2 : List ProductRow) (c : Code)
    (hne : ¬ req.items.length = 0)
    (h : reserveLoop st.products req.items 0 = (tr, prods2, Except.error c)) :
    OrderServer.CreateOrder st req newId headerOk itemOk =
      ({ st with products := prods2 }, Except.error Code.FailedPrecondition) := by
  unfold OrderServer.CreateOrder
  rw [if_neg hne, h]

lemma CreateOrder_loop_ok (st : St) (req : CreateOrderRequest) (newId : String)
    (itemOk : Nat → Bool) (tr : List StockCall)
    (prods2 : List ProductRow) (total : Rat)
    (hne : ¬ req.items.length = 0)
    (h : reserveLoop st.products req.items 0 = (tr, prods2, Except.ok total)) :
    OrderServer.CreateOrder st req newId true itemOk =
      ({ products := prods2,
         orders := st.orders ++ [⟨newId, req.userId, total, "CREATED"⟩],
         orderItems := st.orderItems ++ insertOrderItems newId req.items itemOk },
       Except.ok ⟨newId, req.userId, req.items, total, "CREATED"⟩) := by
  unfold OrderServer.CreateOrder
  rw [if_neg hne, h]
  rfl

lemma CreateOrder_ok_inv (st : St) (req : CreateOrderRequest) (newId : String)
    (headerOk : Bool) (itemOk : Nat → Bool) (st2 : St) (msg : OrderMsg)
    (h : OrderServer.CreateOrder st req newId headerOk itemOk = (st2, Except.ok msg)) :
    ∃ tr prods2,
      reserveLoop st.products req.items 0 = (tr, prods2, Except.ok msg.total) ∧
      headerOk = true ∧
      msg = ⟨newId, req.userId, req.items, msg.total, "CREATED"⟩ ∧
      st2 = { products := prods2,
              orders := st.orders ++ [⟨newId, req.userId, msg.total, "CREATED"⟩],
              orderItems := st.orderItems ++ insertOrderItems newId req.items itemOk } := by
  unfold OrderServer.CreateOrder at h
  by_cases hlen : req.items.length = 0
  · rw [if_pos hlen] at h
    simp only [Prod.mk.injEq] at h
    exact absurd h.2 (by simp)
  · rw [if_neg hlen] at h
    rcases hl : reserveLoop st.products req.items 0 with ⟨tr, prods2, res⟩
    rw [hl] at h
    cases res with
    | error c =>
      simp only [Prod.mk.injEq] at h
      exact absurd h.2 (by simp)
    | ok total =>
      cases headerOk with
      | false =>
        simp only [Bool.false_eq_true, if_false, Prod.mk.injEq] at h
        exact absurd h.2 (by simp)
      | true =>
        simp only [if_true, Prod.mk.injEq] at h
        obtain ⟨hst2, hmsg⟩ := h
        have hmsg2 : msg = ⟨newId, req.userId, req.items, total, "CREATED"⟩ := by
          cases hmsg
          rfl
        have htot : msg.total = total := by rw [hmsg2]
        refine ⟨tr, prods2, ?_, rfl, ?_, ?_⟩
        · rw [htot]
        · rw [hmsg2]
        · rw [htot]
          exact hst2.symm

lemma CreateOrder_orders_mem (st : St) (req : CreateOrderRequest) (newId : String)
    (headerOk : Bool) (itemOk : Nat → Bool) :
    ∀ o ∈ (OrderServer.CreateOrder st req newId headerOk itemOk).1.orders,
      o ∈ st.orders ∨ o.status = "CREATED" := by
  unfold OrderServer.CreateOrder
  by_cases hlen : req.items.length = 0
  · rw [if_pos hlen]
    intro o ho
    exact Or.inl ho
  · rw [if_neg hlen]
    rcases hl : reserveLoop st.products req.items 0 with ⟨tr, prods2, res⟩
    cases res with
    | error c =>
      intro o ho
      exact Or.inl ho
    | ok total =>
      cases headerOk with
      | false =>
        intro o ho
        simp only [Bool.false_eq_true, if_false] at ho
        exact Or.inl ho
      | true =>
        intro o ho
        simp only [if_true, List.mem_append, List.mem_singleton] at ho
        rcases ho with ho | ho
        · exact Or.inl ho
        · right
          rw [ho]

/-! ### Claim C1 -/

/-- Claim C1: the spec asserts `available_quantity >= 0` in every reachable
state. The code refutes it: `Postgres.UpdateStock` runs an unconditional
`UPDATE products SET stock = stock + delta`, so a single `CreateOrder` for 2
units against stock 1 succeeds and leaves `P1` at stock `-1`, a reachable state
with negative stock. -/
theorem create_order_drives_stock_negative :
    Reachable stC1after ∧
    stC1after.products = [⟨"P1", "widget", 10, -1⟩] ∧
    ¬ (∀ st, Reachable st → ∀ r ∈ st.products, 0 ≤ r.stock) := by
  have hreach : Reachable stC1after :=
    Reachable.step (Reachable.init stC1 (by decide) rfl rfl)
      (Step.createOrder stC1 reqC1 "ORD-1" true (fun _ => true))
  have hprod : stC1after.products = [⟨"P1", "widget", 10, -1⟩] := rfl
  refine ⟨hreach, hprod, ?_⟩
  intro hall
  have hmem : (⟨"P1", "widget", 10, -1⟩ : ProductRow) ∈ stC1after.products := by
    rw [hprod]
    exact List.mem_singleton.mpr rfl
  have hle := hall stC1after hreach ⟨"P1", "widget", 10, -1⟩ hmem
  exact absurd hle (by decide)

/-! ### Claim C2 -/

/-- Claim C2 counterexample: `Reserve` (UpdateStock with negative delta) is
claimed to succeed exactly when `available_quantity >= q` and to fail with
`InsufficientStock` otherwise, leaving the entry unchanged. With `P1` at stock
1, reserving `q = 2` nevertheless succeeds and drives the entry to `-1`:
there is no availability check and no `InsufficientStock` outcome. -/
theorem reserve_oversell_succeeds_cex :
    ProductServer.UpdateStock tblC2 "P1" (-2) =
      Except.ok ([⟨"P1", "widget", 10, -1⟩], ⟨"P1", "widget", 10, -1⟩) ∧
    Postgres.GetProduct tblC2 "P1" = some ⟨"P1", "widget", 10, 1⟩ ∧
    ((1 : Int) < 2) :=
  ⟨rfl, rfl, by decide⟩

/-- Claim C2 amended: `UpdateStock` with delta `-q` decrements unconditionally.
For a product present in the table it always succeeds — regardless of whether
`available_quantity >= q` — changing the row's stock from `s` to `s - q`; for an
unknown product it fails with `NotFound` and leaves the table unchanged. No
`InsufficientStock` outcome exists. -/
theorem update_stock_unconditional (tbl : List ProductRow) (id : String) (q : Int) :
    (∀ r, Postgres.GetProduct tbl id = some r →
      ProductServer.UpdateStock tbl id (-q) =
        Except.ok (updateStockTable tbl id (-q), { r with stock := r.stock - q })) ∧
    (Postgres.GetProduct tbl id = none →
      ProductServer.UpdateStock tbl id (-q) = Except.error Code.NotFound ∧
      updateStockTable tbl id (-q) = tbl) := by
  constructor
  · intro r hr
    have hr2 : List.find? (fun r => decide (r.id = id)) tbl = some r := hr
    have hrid : r.id = id := by
      have := List.find?_some hr2
      simpa using this
    have hfind : Postgres.GetProduct (updateStockTable tbl id (-q)) id =
        some { r with stock := r.stock + (-q) } := by
      rw [GetProduct_updateStockTable, hr]
      simp [hrid]
    have hok := ProductServer.UpdateStock_found hfind
    rw [hok, sub_eq_add_neg]
  · intro hnone
    have hid2 := updateStockTable_id tbl id (-q) hnone
    refine ⟨?_, hid2⟩
    apply ProductServer.UpdateStock_notFound
    rw [hid2]
    exact hnone

/-- Witness for `update_stock_unconditional` at concrete inputs: `P1` (stock 1,
reserving 2 succeeds into negative stock) and the unknown id `ZZZ`. -/
theorem update_stock_unconditional_witness :
    ProductServer.UpdateStock tblC2 "P1" (-2) =
      Except.ok (updateStockTable tblC2 "P1" (-2), ⟨"P1", "widget", 10, -1⟩) ∧
    (ProductServer.UpdateStock tblC2 "ZZZ" (-2) = Except.error Code.NotFound ∧
      updateStockTable tblC2 "ZZZ" (-2) = tblC2) := by
  constructor
  · exact (update_stock_unconditional tblC2 "P1" 2).1 ⟨"P1", "widget", 10, 1⟩ rfl
  · exact (update_stock_unconditional tblC2 "ZZZ" 2).2 rfl

/-! ### Claim C3 -/

/-- Claim C3 counterexample: with `P1` at 5 and the request `[P1, P2]` where
`P2` is unknown, the second reservation fails — but contrary to the claim no
release is issued (`P1` stays decremented at 4, net effect `-1`, not zero) and
no CANCELLED order is persisted (the orders table stays empty). -/
theorem reservation_failure_keeps_decrements_cex :
    OrderServer.CreateOrder stC3 reqC3 "ORD-3" true (fun _ => true) =
      (⟨[⟨"P1", "widget", 10, 4⟩], [], []⟩, Except.error Code.FailedPrecondition) ∧
    Postgres.GetProduct stC3.products "P1" = some ⟨"P1", "widget", 10, 5⟩ ∧
    ¬ ((4 : Int) = 5) :=
  ⟨rfl, rfl, by decide⟩

/-- Claim C3 amended: when a reservation fails mid-loop, `CreateOrder` stops
iterating and returns `FailedPrecondition`, but performs no compensation: the
orders and order_items tables are unchanged (no CANCELLED order is written),
every product-service call it made was a reserve of a request item (no release
calls), and the decrements of the already-reserved prefix persist in the
returned product table. -/
theorem create_order_failure_no_compensation (st : St) (req : CreateOrderRequest)
    (newId : String) (headerOk : Bool) (itemOk : Nat → Bool) (tr : List StockCall)
    (prods2 : List ProductRow) (c : Code)
    (hne : ¬ req.items.length = 0)
    (hloop : reserveLoop st.products req.items 0 = (tr, prods2, Except.error c)) :
    OrderServer.CreateOrder st req newId headerOk itemOk =
      ({ st with products := prods2 }, Except.error Code.FailedPrecondition) ∧
    (∀ call ∈ tr, ∃ i ∈ req.items, call = (i.productId, -i.quantity)) := by
  refine ⟨CreateOrder_loop_error st req newId headerOk itemOk tr prods2 c hne hloop, ?_⟩
  obtain ⟨hpos, hle, htr, hframe⟩ :=
    reserveLoop_error_inv req.items st.products 0 tr prods2 c hloop
  intro call hc
  rw [htr] at hc
  obtain ⟨i, hi, rfl⟩ := List.mem_map.mp hc
  exact ⟨i, List.take_subset _ _ hi, rfl⟩

/-- Witness for `create_order_failure_no_compensation` at the concrete
failing request `reqC3` against `stC3`. -/
theorem create_order_failure_no_compensation_witness :
    (OrderServer.CreateOrder stC3 reqC3 "ORD-3b" true (fun _ => true)).2 =
      Except.error Code.FailedPrecondition := by
  have h := create_order_failure_no_compensation stC3 reqC3 "ORD-3b" true (fun _ => true)
    [("P1", -1), ("P2", -1)] [⟨"P1", "widget", 10, 4⟩] Code.NotFound (by decide) rfl
  rw [h.1]

/-! ### Claim C4 -/

/-- Claim C4 counterexample: a request containing an item with quantity
`-3 ≤ 0` is claimed to fail with an InvalidRequest-class error and no side
effects. Instead `CreateOrder` accepts it, calls `UpdateStock` with delta
`-(-3) = +3` (stock rises from 5 to 8), and persists an order with negative
total `-30`. -/
theorem nonpositive_quantity_not_rejected_cex :
    OrderServer.CreateOrder stC4 reqC4 "ORD-4" true (fun _ => true) =
      (⟨[⟨"P1", "widget", 10, 8⟩], [⟨"ORD-4", "U1", -30, "CREATED"⟩],
        [⟨"ORD-4", "P1", -3, 10⟩]⟩,
       Except.ok ⟨"ORD-4", "U1", [⟨"P1", -3, 10⟩], -30, "CREATED"⟩) ∧
    ((-3 : Int) ≤ 0) := by
  have htot : (0 : Rat) + ((-3 : Int) : Rat) * 10 = -30 := by norm_num
  refine ⟨?_, by decide⟩
  rw [← htot]
  rfl

/-- Claim C4 amended: only the empty item list is validated — an empty request
fails with `InvalidArgument` and leaves the state untouched. Items with
quantity ≤ 0 are not rejected (see the counterexample: they are processed like
any other item, a negative quantity increasing stock). -/
theorem create_order_empty_rejected (st : St) (req : CreateOrderRequest)
    (newId : String) (headerOk : Bool) (itemOk : Nat → Bool)
    (h : req.items = []) :
    OrderServer.CreateOrder st req newId headerOk itemOk =
      (st, Except.error Code.InvalidArgument) :=
  CreateOrder_empty_eq st req newId headerOk itemOk (by rw [h]; rfl)

/-- Witness for `create_order_empty_rejected` at the concrete empty request. -/
theorem create_order_empty_rejected_witness :
    OrderServer.CreateOrder stC4 reqC4e "ORD-4e" true (fun _ => true) =
      (stC4, Except.error Code.InvalidArgument) :=
  create_order_empty_rejected stC4 reqC4e "ORD-4e" true (fun _ => true) rfl

/-! ### Claim C5 -/

/-- Claim C5 counterexample: with both reservations succeeding, the claim says
the order is first created PENDING and a Payment Adapter decides CONFIRMED or
CANCELLED. The code instead persists and returns the order with status
`"CREATED"` (≠ `"PENDING"`): no payment step exists in `CreateOrder`. -/
theorem no_pending_or_payment_cex :
    OrderServer.CreateOrder stC5 reqC5 "ORD-5" true (fun _ => true) =
      (⟨[⟨"P1", "widget", 3, 3⟩, ⟨"P2", "gadget", 7, 3⟩],
        [⟨"ORD-5", "U1", 60, "CREATED"⟩],
        [⟨"ORD-5", "P1", 2, 10⟩, ⟨"ORD-5", "P2", 2, 20⟩]⟩,
       Except.ok ⟨"ORD-5", "U1", [⟨"P1", 2, 10⟩, ⟨"P2", 2, 20⟩], 60, "CREATED"⟩) ∧
    ¬ (("CREATED" : String) = "PENDING") := by
  have htot : (0 : Rat) + ((2 : Int) : Rat) * 10 + ((2 : Int) : Rat) * 20 = 60 := by norm_num
  refine ⟨?_, by decide⟩
  rw [← htot]
  rfl

/-- Claim C5 amended: when every reservation succeeds (and the header insert
succeeds), the order is persisted and returned with status `"CREATED"`; the
stock decrements of the loop are final, and the only product-service calls of
the whole placement are the per-item reserves, in request order — there is no
payment invocation, no PENDING/CONFIRMED/CANCELLED transition, and no
stock restoration. -/
theorem create_order_success_no_payment (st : St) (req : CreateOrderRequest)
    (newId : String) (itemOk : Nat → Bool) (tr : List StockCall)
    (prods2 : List ProductRow) (total : Rat)
    (hne : ¬ req.items.length = 0)
    (hloop : reserveLoop st.products req.items 0 = (tr, prods2, Except.ok total)) :
    OrderServer.CreateOrder st req newId true itemOk =
      ({ products := prods2,
         orders := st.orders ++ [⟨newId, req.userId, total, "CREATED"⟩],
         orderItems := st.orderItems ++ insertOrderItems newId req.items itemOk },
       Except.ok ⟨newId, req.userId, req.items, total, "CREATED"⟩) ∧
    tr = req.items.map (fun i => (i.productId, -i.quantity)) := by
  refine ⟨CreateOrder_loop_ok st req newId itemOk tr prods2 total hne hloop, ?_⟩
  exact (reserveLoop_ok_inv req.items st.products 0 tr prods2 total hloop).2

/-- Witness for `create_order_success_no_payment` at the concrete fully
satisfiable request `reqC5` against `stC5`. -/
theorem create_order_success_no_payment_witness :
    (OrderServer.CreateOrder stC5 reqC5 "ORD-5b" true (fun _ => true)).2 =
      Except.ok ⟨"ORD-5b", "U1", [⟨"P1", 2, 10⟩, ⟨"P2", 2, 20⟩], 60, "CREATED"⟩ := by
  have htot : (0 : Rat) + ((2 : Int) : Rat) * 10 + ((2 : Int) : Rat) * 20 = 60 := by norm_num
  have hloop : reserveLoop stC5.products reqC5.items 0 =
      ([("P1", -2), ("P2", -2)],
       [⟨"P1", "widget", 3, 3⟩, ⟨"P2", "gadget", 7, 3⟩], Except.ok 60) := by
    rw [← htot]
    rfl
  have h := create_order_success_no_payment stC5 reqC5 "ORD-5b" (fun _ => true)
    [("P1", -2), ("P2", -2)] [⟨"P1", "widget", 3, 3⟩, ⟨"P2", "gadget", 7, 3⟩] 60
    (by decide) hloop
  rw [h.1]
  rfl

/-! ### Claim C6 -/

/-- Claim C6: whenever `CreateOrder` returns success, the total carried by the
returned order message equals `Σ quantity × unit_price` over the request's
items, and the persisted order row carries that same total. -/
theorem create_order_total_eq_sum (st : St) (req : CreateOrderRequest) (newId : String)
    (headerOk : Bool) (itemOk : Nat → Bool) (st2 : St) (msg : OrderMsg)
    (h : OrderServer.CreateOrder st req newId headerOk itemOk = (st2, Except.ok msg)) :
    msg.total = itemsTotal req.items ∧
    (⟨newId, req.userId, itemsTotal req.items, "CREATED"⟩ : OrderRow) ∈ st2.orders := by
  obtain ⟨tr, prods2, hloop, hh, hmsg, hst2⟩ :=
    CreateOrder_ok_inv st req newId headerOk itemOk st2 msg h
  have htot : msg.total = 0 + itemsTotal req.items :=
    (reserveLoop_ok_inv req.items st.products 0 tr prods2 msg.total hloop).1
  have htot2 : msg.total = itemsTotal req.items := by rw [htot, zero_add]
  refine ⟨htot2, ?_⟩
  rw [hst2, ← htot2]
  exact List.mem_append_right _ (List.mem_singleton.mpr rfl)

/-- Witness for `create_order_total_eq_sum`: 2 units at price 3 give total 6. -/
theorem create_order_total_eq_sum_witness :
    (6 : Rat) = itemsTotal reqC6.items ∧
    (⟨"ORD-6", "U1", itemsTotal reqC6.items, "CREATED"⟩ : OrderRow) ∈
      ([⟨"ORD-6", "U1", 6, "CREATED"⟩] : List OrderRow) := by
  have htot : (0 : Rat) + ((2 : Int) : Rat) * 3 = 6 := by norm_num
  have h : OrderServer.CreateOrder stC6 reqC6 "ORD-6" true (fun _ => true) =
      (⟨[⟨"P1", "widget", 2, 3⟩], [⟨"ORD-6", "U1", 6, "CREATED"⟩],
        [⟨"ORD-6", "P1", 2, 3⟩]⟩,
       Except.ok ⟨"ORD-6", "U1", [⟨"P1", 2, 3⟩], 6, "CREATED"⟩) := by
    rw [← htot]
    rfl
  exact create_order_total_eq_sum stC6 reqC6 "ORD-6" true (fun _ => true) _ _ h

/-! ### Claim C7 -/

/-- Claim C7 counterexample: the claim restricts persisted order statuses to
PENDING/CONFIRMED/CANCELLED. A single successful `CreateOrder` yields a
reachable state whose only persisted order has status `"CREATED"`, which is
none of the three; moreover no `SetStatus` operation exists in the code, so
the claimed transition rules have nothing to govern. -/
theorem order_status_created_not_spec_cex :
    Reachable stC7after ∧
    stC7after.orders = [⟨"ORD-7", "U1", 10, "CREATED"⟩] ∧
    ¬ (("CREATED" : String) = "PENDING" ∨ ("CREATED" : String) = "CONFIRMED" ∨
       ("CREATED" : String) = "CANCELLED") := by
  have htot : (0 : Rat) + ((1 : Int) : Rat) * 10 = 10 := by norm_num
  refine ⟨Reachable.step (Reachable.init stC7init (by decide) rfl rfl)
    (Step.createOrder stC7init reqC7 "ORD-7" true (fun _ => true)), ?_, by decide⟩
  rw [← htot]
  rfl

/-- Claim C7 amended: every order persisted in any reachable state has status
`"CREATED"` — the only status value the code ever writes. The code has no
`SetStatus` operation, so no status ever changes. -/
theorem reachable_orders_status_created (st : St) (h : Reachable st) :
    ∀ o ∈ st.orders, o.status = "CREATED" := by
  induction h with
  | init st hstock horders hitems =>
    intro o ho
    rw [horders] at ho
    exact absurd ho (List.not_mem_nil o)
  | @step st0 st2 hr hs ih =>
    cases hs with
    | createOrder req newId headerOk itemOk =>
      intro o ho
      rcases CreateOrder_orders_mem st0 req newId headerOk itemOk o ho with h1 | h1
      · exact ih o h1
      · exact h1
    | reserve pid q hq =>
      intro o ho
      exact ih o ho
    | release pid q hq =>
      intro o ho
      exact ih o ho

/-- Witness for `reachable_orders_status_created` at the concrete reachable
state `stC7after` and its persisted order. -/
theorem reachable_orders_status_created_witness :
    (⟨"ORD-7", "U1", 10, "CREATED"⟩ : OrderRow).status = "CREATED" := by
  have htot : (0 : Rat) + ((1 : Int) : Rat) * 10 = 10 := by norm_num
  have hord : stC7after.orders = [⟨"ORD-7", "U1", 10, "CREATED"⟩] := by
    rw [← htot]
    rfl
  have hreach : Reachable stC7after :=
    Reachable.step (Reachable.init stC7init (by decide) rfl rfl)
      (Step.createOrder stC7init reqC7 "ORD-7" true (fun _ => true))
  exact reachable_orders_status_created stC7after hreach ⟨"ORD-7", "U1", 10, "CREATED"⟩
    (by rw [hord]; exact List.mem_singleton.mpr rfl)

/-! ### Claim C8 -/

/-- Claim C8 counterexample: the claim says the stock entries of all items
after the failing index are left completely unchanged. In `reqC8 = [P1, P2, P1]`
with `P2` unknown, the reservation fails at index 1 — yet the item at index 2
(product `P1`, after the failing index) has its stock entry changed from 5 to 4
by the index-0 reservation of the same product. -/
theorem later_duplicate_item_stock_changed_cex :
    (OrderServer.CreateOrder stC8 reqC8 "ORD-8" true (fun _ => true)).2 =
      Except.error Code.FailedPrecondition ∧
    reqC8.items.drop 2 = [⟨"P1", 1, 10⟩] ∧
    Postgres.GetProduct
        (OrderServer.CreateOrder stC8 reqC8 "ORD-8" true (fun _ => true)).1.products "P1" =
      some ⟨"P1", "widget", 10, 4⟩ ∧
    Postgres.GetProduct stC8.products "P1" = some ⟨"P1", "widget", 10, 5⟩ ∧
    ¬ ((4 : Int) = 5) :=
  ⟨rfl, rfl, rfl, rfl, by decide⟩

/-- Claim C8 amended: the reservation loop is strictly sequential — when it
fails, the calls it issued are exactly the reserves of the items up to and
including the failing one, in caller order (so item `N+1` is attempted only
after item `N` succeeds) — and the stock entry of every product that does not
occur among those attempted items is unchanged. (An item after the failing
index whose product repeats an earlier attempted item may have a changed
entry; see the counterexample.) -/
theorem reserve_sequential_frame (st : St) (req : CreateOrderRequest)
    (t : Rat) (tr : List StockCall) (prods2 : List ProductRow) (c : Code)
    (h : reserveLoop st.products req.items t = (tr, prods2, Except.error c)) :
    0 < tr.length ∧ tr.length ≤ req.items.length ∧
    tr = (req.items.take tr.length).map (fun i => (i.productId, -i.quantity)) ∧
    ∀ p, p ∉ (req.items.take tr.length).map (fun i => i.productId) →
      Postgres.GetProduct prods2 p = Postgres.GetProduct st.products p :=
  reserveLoop_error_inv req.items st.products t tr prods2 c h

/-- Witness for `reserve_sequential_frame` at the concrete failing request
`reqC8` against `stC8`: the issued calls are the reserves of items 0 and 1,
and a product absent from the attempted prefix (here `"P9"`) is untouched. -/
theorem reserve_sequential_frame_witness :
    ([("P1", -1), ("P2", -1)] : List StockCall) =
      (reqC8.items.take 2).map (fun i => (i.productId, -i.quantity)) ∧
    Postgres.GetProduct [⟨"P1", "widget", 10, 4⟩] "P9" =
      Postgres.GetProduct stC8.products "P9" := by
  have h := reserve_sequential_frame stC8 reqC8 0 [("P1", -1), ("P2", -1)]
    [⟨"P1", "widget", 10, 4⟩] Code.NotFound rfl
  exact ⟨h.2.2.1, h.2.2.2 "P9" (by decide)⟩

/-! ### Claim C9 -/

/-- Claim C9: once the reservation loop and the order-header insert succeed,
`CreateOrder` returns success with the response echoing all request items,
whatever the outcomes of the per-item `order_items` inserts (their errors are
discarded); the stored line items are only those whose insert succeeded, and
with every insert failing the order is stored with no line items at all. -/
theorem create_order_ignores_item_insert_failures (st : St) (req : CreateOrderRequest)
    (newId : String) (itemOk itemOk2 : Nat → Bool) (tr : List StockCall)
    (prods2 : List ProductRow) (total : Rat)
    (hne : ¬ req.items.length = 0)
    (hloop : reserveLoop st.products req.items 0 = (tr, prods2, Except.ok total)) :
    (OrderServer.CreateOrder st req newId true itemOk).2 =
      Except.ok ⟨newId, req.userId, req.items, total, "CREATED"⟩ ∧
    (OrderServer.CreateOrder st req newId true itemOk).2 =
      (OrderServer.CreateOrder st req newId true itemOk2).2 ∧
    (OrderServer.CreateOrder st req newId true itemOk).1.orderItems =
      st.orderItems ++ insertOrderItems newId req.items itemOk ∧
    insertOrderItems newId req.items (fun _ => false) = [] := by
  have h1 := CreateOrder_loop_ok st req newId itemOk tr prods2 total hne hloop
  have h2 := CreateOrder_loop_ok st req newId itemOk2 tr prods2 total hne hloop
  rw [h1, h2]
  refine ⟨rfl, rfl, rfl, ?_⟩
  simp [insertOrderItems]

/-- Witness for `create_order_ignores_item_insert_failures` with every
line-item insert failing: the response is still a success echoing the item,
while the stored `order_items` table stays empty. -/
theorem create_order_ignores_item_insert_failures_witness :
    (OrderServer.CreateOrder stC9 reqC9 "ORD-9" true (fun _ => false)).2 =
      Except.ok ⟨"ORD-9", "U1", [⟨"P1", 2, 10⟩], 20, "CREATED"⟩ ∧
    (OrderServer.CreateOrder stC9 reqC9 "ORD-9" true (fun _ => false)).1.orderItems = [] := by
  have htot : (0 : Rat) + ((2 : Int) : Rat) * 10 = 20 := by norm_num
  have hloop : reserveLoop stC9.products reqC9.items 0 =
      ([("P1", -2)], [⟨"P1", "widget", 10, 3⟩], Except.ok 20) := by
    rw [← htot]
    rfl
  have h := create_order_ignores_item_insert_failures stC9 reqC9 "ORD-9"
    (fun _ => false) (fun _ => true) [("P1", -2)] [⟨"P1", "widget", 10, 3⟩] 20
    (by decide) hloop
  refine ⟨?_, ?_⟩
  · rw [h.1]
    rfl
  · rw [h.2.2.1, h.2.2.2]
    rfl

/-! ### Claim C10 -/

/-- Claim C10: `GetOrder` and `ListOrders` never read the `order_items` table:
every order they return carries an empty items list (even when line items are
persisted, as in the witness), and `GetOrder` fails with `NotFound` when no
order row matches the requested id. -/
theorem get_list_orders_empty_items (st : St) (id uid : String) :
    (∀ msg, OrderServer.GetOrder st id = Except.ok msg → msg.items = []) ∧
    (st.orders.find? (fun o => o.id = id) = none →
      OrderServer.GetOrder st id = Except.error Code.NotFound) ∧
    (∀ msg ∈ OrderServer.ListOrders st uid, msg.items = []) := by
  refine ⟨?_, ?_, ?_⟩
  · intro msg hmsg
    unfold OrderServer.GetOrder at hmsg
    cases hf : st.orders.find? (fun o => o.id = id) with
    | none =>
      rw [hf] at hmsg
      exact absurd hmsg (by simp)
    | some o =>
      rw [hf] at hmsg
      simp only [Except.ok.injEq] at hmsg
      rw [← hmsg]
  · intro hf
    unfold OrderServer.GetOrder
    rw [hf]
  · intro msg hmsg
    unfold OrderServer.ListOrders at hmsg
    obtain ⟨o, ho, rfl⟩ := List.mem_map.mp hmsg
    rfl

/-- Witness for `get_list_orders_empty_items` at `stC10`, a state whose stored
order does have a persisted `order_items` row, and at an unknown order id. -/
theorem get_list_orders_empty_items_witness :
    (⟨"ORD-10", "U1", [], 60, "CREATED"⟩ : OrderMsg).items = ([] : List OrderItem) ∧
    OrderServer.GetOrder stC10 "NOPE" = Except.error Code.NotFound ∧
    stC10.orderItems = [⟨"ORD-10", "P1", 2, 10⟩] := by
  refine ⟨?_, ?_, rfl⟩
  · exact (get_list_orders_empty_items stC10 "ORD-10" "U1").1
      ⟨"ORD-10", "U1", [], 60, "CREATED"⟩ rfl
  · exact (get_list_orders_empty_items stC10 "NOPE" "U1").2.1 rfl

end ECommerce
